import Mathlib

/-!
# A verification of the descriptor-based ML notebook pipeline

Shallow embedding of the data pipeline of
`01_machineLearning/part-2_ml-with-materials-data/0_ml-using-chemical-descriptors.ipynb`:
load molecules → parse structures → compute descriptors → clean → scale →
reduce (PCA) → fit (LassoCV) → split/evaluate.

Numbers are modelled as exact rationals (`ℚ`); tabular data as lists.
Each third-party call of the notebook (pandas, scikit-learn, RDKit, Mordred)
is embedded by its documented semantics at the call configuration the
notebook uses.
-/

namespace DescriptorML

/-! ## Feature Cleaner (notebook cells: `zero_variation`, `pd.to_numeric`, `isnull`)

A raw descriptor-table cell is either a numeric value (the column then has a
numeric dtype when every cell is numeric) or a non-numeric object (e.g. a
Mordred error object, or a string).  `Cell.raw p` carries the value `p` that
`pd.to_numeric(..., errors='coerce')` would produce for it: `some q` when the
object parses as the number `q`, `none` (missing/NaN) when it does not. -/

inductive Cell where
  | num : ℚ → Cell
  | raw : Option ℚ → Cell
deriving DecidableEq

/-- `pd.to_numeric(col, errors='coerce')`, per cell. -/
def Cell.toNumeric : Cell → Option ℚ
  | .num q => some q
  | .raw p => p

/-- Whether a cell is already numeric (contributes to a numeric column dtype). -/
def Cell.isNum : Cell → Bool
  | .num _ => true
  | .raw _ => false

/-- A column has numeric dtype iff all of its cells are numeric. -/
def numericCol (c : List Cell) : Bool := c.all Cell.isNum

/-- All cells of a column are equal (to the first one). -/
def allEqualCells (c : List Cell) : Bool :=
  match c with
  | [] => true
  | x :: t => t.all (· = x)

/-- The notebook's `zero_variation` test, per column:
`[c for c, s in desc.std().items() if s == 0]`.
`DataFrame.std()` silently skips non-numeric (object-dtype) columns, and for a
column with fewer than two values the sample standard deviation is `NaN`
(never `== 0`); a numeric column has standard deviation exactly zero iff all
its values coincide. -/
def zeroVariation (c : List Cell) : Bool :=
  numericCol c && decide (2 ≤ c.length) && allEqualCells c

/-- A descriptor table, column-major: named columns of cells. -/
abbrev RawTable := List (String × List Cell)

/-- Cleaning step (a): `desc.drop(columns=zero_variation)`. -/
def cleanStepA (t : RawTable) : RawTable :=
  t.filter (fun p => ! zeroVariation p.2)

/-- Cleaning step (b): `desc[c] = pd.to_numeric(desc[c], errors='coerce')`
for every remaining column; `none` is a missing value (NaN). -/
def cleanStepB (t : RawTable) : List (String × List (Option ℚ)) :=
  t.map (fun p => (p.1, p.2.map Cell.toNumeric))

/-- Cleaning step (c): `desc = desc.loc[:, ~desc.isnull().any()]` — keep only
the columns with no missing value. -/
def cleanStepC (t : List (String × List (Option ℚ))) :
    List (String × List (Option ℚ)) :=
  t.filter (fun p => p.2.all Option.isSome)

/-- The Feature Cleaner: the notebook's three cleaning cells in order. -/
def cleanTable (t : RawTable) : List (String × List (Option ℚ)) :=
  cleanStepC (cleanStepB (cleanStepA t))

/-- All values of a coerced column are equal. -/
def allEqualOpt (c : List (Option ℚ)) : Bool :=
  match c with
  | [] => true
  | x :: t => t.all (· = x)

/-- Claim C1 as stated by the spec: after the three cleaning steps, every
remaining column has no missing value and (when variance is defined, i.e. at
least two rows) nonzero variance. -/
def claimC1 : Prop :=
  ∀ (t : RawTable) (p : String × List (Option ℚ)), p ∈ cleanTable t →
    p.2.all Option.isSome = true ∧
      (2 ≤ p.2.length → allEqualOpt p.2 = false)

/-- C1, counterexample: a column of two identical numeric *strings* (each
coerces to `5`) is skipped by the zero-variance test — `DataFrame.std()`
ignores non-numeric columns — survives coercion with no missing value, and
remains in the cleaned table with zero variance, so the claim as stated is
false. -/
theorem C1_counterexample : ¬ claimC1 := by
  intro h
  have hm : ("c", [some (5 : ℚ), some 5]) ∈
      cleanTable [("c", [Cell.raw (some 5), Cell.raw (some 5)])] := by
    decide
  have := (h _ _ hm).2 (by decide)
  simp [allEqualOpt] at this

/-- C1 (amended): after cleaning, no remaining column has a missing value;
and every remaining column that was *numeric before coercion* (numeric dtype,
at least two rows) has nonzero variance.  A zero-variance column can persist
only if it was non-numeric before coercion (e.g. identical numeric strings),
because the notebook's zero-variance check `desc.std()` skips non-numeric
columns. -/
theorem C1_amended (t : RawTable) :
    (∀ p ∈ cleanTable t, p.2.all Option.isSome = true) ∧
      (∀ p ∈ cleanStepA t, numericCol p.2 = true → 2 ≤ p.2.length →
        allEqualCells p.2 = false) := by
  constructor
  · intro p hp
    have hp' : p ∈ List.filter (fun p => p.2.all Option.isSome)
        (cleanStepB (cleanStepA t)) := hp
    simpa using (List.mem_filter.mp hp').2
  · intro p hp hnum hlen
    have hp' : p ∈ List.filter (fun p => ! zeroVariation p.2) t := hp
    have hkeep : (! zeroVariation p.2) = true := (List.mem_filter.mp hp').2
    simp only [Bool.not_eq_eq_eq_not, Bool.not_true, zeroVariation,
      Bool.and_eq_false_imp] at hkeep
    by_contra hne
    simp only [Bool.not_eq_false] at hne
    have := hkeep
    simp [hnum, hlen, hne] at this

/-- Witness for `C1_amended` at a concrete table: column `a` varies and
column `b` is numeric-constant; after cleaning only `a` remains, with no
missing values, and the surviving numeric column of step (a) is
non-constant. -/
theorem C1_amended_witness :
    (("a", [some (1 : ℚ), some 2]) ∈
        cleanTable [("a", [Cell.num 1, Cell.num 2]), ("b", [Cell.num 3, Cell.num 3])] ∧
      [some (1 : ℚ), some 2].all Option.isSome = true) ∧
      (("a", [Cell.num 1, Cell.num 2]) ∈
          cleanStepA [("a", [Cell.num 1, Cell.num 2]), ("b", [Cell.num 3, Cell.num 3])] ∧
        allEqualCells [Cell.num 1, Cell.num 2] = false) := by
  refine ⟨⟨by decide, ?_⟩, ⟨by decide, ?_⟩⟩
  · exact (C1_amended [("a", [Cell.num 1, Cell.num 2]),
      ("b", [Cell.num 3, Cell.num 3])]).1
      ("a", [some (1 : ℚ), some 2]) (by decide)
  · exact (C1_amended [("a", [Cell.num 1, Cell.num 2]),
      ("b", [Cell.num 3, Cell.num 3])]).2
      ("a", [Cell.num 1, Cell.num 2]) (by decide) (by decide) (by decide)

/-! ## Evaluator metrics (notebook imports `r2_score, mean_absolute_error`;
final cell computes `r2 = r2_score(test_data[col], test_data['bandgap'])`) -/

/-- Arithmetic mean of a list (`0` for the empty list, as `ℚ`-division by
zero is zero). -/
def listMean (xs : List ℚ) : ℚ := xs.sum / xs.length

/-- `sklearn.metrics.r2_score(y_true, y_pred)`:
`1 - Σ (y_true - y_pred)² / Σ (y_true - mean y_true)²`.  Note the total sum
of squares is centered at the mean of the *first* argument. -/
def r2Score (yTrue yPred : List ℚ) : ℚ :=
  1 - ((yTrue.zip yPred).map (fun p => (p.1 - p.2) ^ 2)).sum /
      (yTrue.map (fun t => (t - listMean yTrue) ^ 2)).sum

/-- `sklearn.metrics.mean_absolute_error(y_true, y_pred)`. -/
def meanAbsError (yTrue yPred : List ℚ) : ℚ :=
  ((yTrue.zip yPred).map (fun p => |p.1 - p.2|)).sum / yTrue.length

/-- The notebook's Evaluator: predict on the held-out descriptors, then
report the metrics of the final plotting cell.  The code computes exactly one
metric per model, `r2_score(test_data[col], test_data['bandgap'])` — the
predictions in the `y_true` slot and the true band gap in the `y_pred` slot;
`mean_absolute_error` is imported but never called. -/
def evaluatorReport (predict : List ℚ → ℚ) (testDesc : List (List ℚ))
    (testTarget : List ℚ) : List ℚ :=
  [r2Score (testDesc.map predict) testTarget]

/-- Claim C3 as stated: the Evaluator reports both the coefficient of
determination with the true target as reference (`y_true`) and the prediction
as estimate, and an absolute-error metric. -/
def claimC3 : Prop :=
  ∀ (predict : List ℚ → ℚ) (testDesc : List (List ℚ)) (testTarget : List ℚ),
    r2Score testTarget (testDesc.map predict) ∈
        evaluatorReport predict testDesc testTarget ∧
      meanAbsError testTarget (testDesc.map predict) ∈
        evaluatorReport predict testDesc testTarget

/-- C3, counterexample: with predictions `[0, 1, 4]` for true targets
`[0, 1, 2]` the notebook reports `r2_score(pred, true) = 7/13`, whereas the
claimed `r2_score(true, pred) = -1`; neither `-1` nor the absolute error
`2/3` is in the report, so the claim as stated is false. -/
theorem C3_counterexample : ¬ claimC3 := by
  intro h
  have hc := (h (fun r => r.sum) [[0], [1], [4]] [0, 1, 2]).1
  simp only [evaluatorReport, List.map, List.mem_singleton, List.sum_cons,
    List.sum_nil] at hc
  norm_num [r2Score, listMean, List.zip, List.zipWith] at hc

/-- C3 (amended): the Evaluator predicts on the test partition and reports a
single metric — the coefficient of determination computed with the
*prediction* as reference and the true target as estimate (the reverse of the
claimed convention): the total sum of squares in the denominator is centered
at the mean of the predictions.  No absolute-error metric is reported. -/
theorem C3_amended (predict : List ℚ → ℚ) (testDesc : List (List ℚ))
    (testTarget : List ℚ) :
    evaluatorReport predict testDesc testTarget =
      [1 - (((testDesc.map predict).zip testTarget).map
              (fun p => (p.1 - p.2) ^ 2)).sum /
            ((testDesc.map predict).map
              (fun v => (v - listMean (testDesc.map predict)) ^ 2)).sum] ∧
      (evaluatorReport predict testDesc testTarget).length = 1 := by
  exact ⟨rfl, rfl⟩

/-! ## Ambient random state, sampling and train/test splitting

The notebook seeds the NumPy *global* generator once (`np.random.seed(128)`)
and every randomized call afterwards — `data.sample(1024)`,
`train_test_split(data, desc, test_size=0.1)` — draws from that ambient
state; none of them is given a `random_state` argument.  (`LassoCV()` at its
default configuration is deterministic: unshuffled K-fold.)  The global
generator is modelled as a deterministic stream of natural-number draws
produced by a linear congruential step. -/

/-- One draw from the ambient global generator. -/
def lcgNext (s : ℕ) : ℕ := (1103515245 * s + 12345) % 2147483648

/-- `np.random.seed(n)`: overwrite whatever ambient global state the process
had with a state derived from the explicit seed alone. -/
def npRandomSeed (_ambient : ℕ) (n : ℕ) : ℕ := n

/-- Fisher–Yates-style shuffle driven by the ambient generator; the fuel
argument is the number of elements still to draw. -/
def shuffleAux {α : Type} : ℕ → List α → ℕ → List α × ℕ
  | 0, _, s => ([], s)
  | _ + 1, [], s => ([], s)
  | k + 1, x :: t, s =>
    let s' := lcgNext s
    let i := s' % (x :: t).length
    have hi : i < (x :: t).length := Nat.mod_lt _ (Nat.succ_pos _)
    let out := shuffleAux k ((x :: t).eraseIdx i) s'
    ((x :: t).get ⟨i, hi⟩ :: out.1, out.2)

/-- Shuffle a list, consuming ambient random state. -/
def shuffle {α : Type} (xs : List α) (s : ℕ) : List α × ℕ :=
  shuffleAux xs.length xs s

/-- `data.sample(n)`: a random `n`-row subset (all rows when `n` exceeds the
row count), drawn from the ambient generator. -/
def pdSample {α : Type} (n : ℕ) (xs : List α) (s : ℕ) : List α × ℕ :=
  let r := shuffle xs s
  (r.1.take n, r.2)

/-- Select the rows of `l` at the given indices, in order. -/
def select {α : Type} (l : List α) (idxs : List ℕ) : List α :=
  idxs.filterMap (fun i => l[i]?)

/-- The random index partition behind `train_test_split`: shuffle the row
indices, put the first `⌈(testNum/testDen)·n⌉` into the test partition and
the rest into the train partition (scikit-learn rounds the test size up).
The held-out fraction `test_size = testNum/testDen` is passed as a pair so
that the ceiling is computed in `ℕ`; the notebook uses `0.1 = 1/10`.
Returns `((testIdx, trainIdx), state)`. -/
def splitIndices (n : ℕ) (testNum testDen : ℕ) (s : ℕ) :
    (List ℕ × List ℕ) × ℕ :=
  let sh := shuffle (List.range n) s
  let nTest := (testNum * n + testDen - 1) / testDen
  ((sh.1.take nTest, sh.1.drop nTest), sh.2)

/-- The four lists returned by
`train_test_split(data, desc, test_size=0.1)`. -/
structure SplitResult (α β : Type) where
  trainData : List α
  testData : List α
  trainDesc : List β
  testDesc : List β
deriving DecidableEq

/-- `sklearn.model_selection.train_test_split(data, desc, test_size=⋯)`:
both arrays are partitioned by the *same* shuffled index lists. -/
def trainTestSplit {α β : Type} (data : List α) (desc : List β)
    (testNum testDen : ℕ) (s : ℕ) : SplitResult α β × ℕ :=
  let r := splitIndices data.length testNum testDen s
  (⟨select data r.1.2, select data r.1.1,
    select desc r.1.2, select desc r.1.1⟩, r.2)

/-- The artifacts of one notebook run that depend on random state, together
with the index bookkeeping needed to talk about leakage. -/
structure NotebookRun (α : Type) where
  sampled : List α
  desc : List (List ℚ)
  exploratoryFitIdx : List ℕ
  pipelineFitIdx : List ℕ
  testIdx : List ℕ
  trainIdx : List ℕ
  split : SplitResult α (List ℚ)
deriving DecidableEq

/-- The notebook's randomized pipeline: seed the global generator with 128,
sample 1024 records, compute their (deterministic) descriptor rows, then
split records and descriptors 90/10.  The exploratory
`scaler.fit_transform(desc)` cell runs *before* the split and therefore is
fit on every sampled row; the `Pipeline` scaler inside
`model.fit(train_desc, ...)` is fit on the train partition only. -/
def runNotebook {α : Type} (ambient : ℕ) (toDesc : α → List ℚ)
    (raw : List α) : NotebookRun α :=
  let g0 := npRandomSeed ambient 128
  let sres := pdSample 1024 raw g0
  let sampled := sres.1
  let desc := sampled.map toDesc
  let idx := splitIndices sampled.length 1 10 sres.2
  { sampled := sampled
    desc := desc
    exploratoryFitIdx := List.range sampled.length
    pipelineFitIdx := idx.1.2
    testIdx := idx.1.1
    trainIdx := idx.1.2
    split := ⟨select sampled idx.1.2, select sampled idx.1.1,
      select desc idx.1.2, select desc idx.1.1⟩ }

/-- The seed-related configuration of one randomized library call. -/
structure RandCallConfig where
  random_state : Option ℕ
deriving DecidableEq

/-- `data.sample(1024)` — no `random_state` argument. -/
def sampleCall : RandCallConfig := ⟨none⟩

/-- `train_test_split(data, desc, test_size=0.1)` — no `random_state`
argument. -/
def splitCall : RandCallConfig := ⟨none⟩

/-- `LassoCV()` — no `random_state` argument. -/
def lassoCVCall : RandCallConfig := ⟨none⟩

/-- Claim C2 as stated: every randomized call of the pipeline passes an
explicit seed parameter, and for a fixed seed two runs on the same input give
identical outputs. -/
def claimC2 : Prop :=
  (sampleCall.random_state.isSome = true ∧
    splitCall.random_state.isSome = true ∧
    lassoCVCall.random_state.isSome = true) ∧
  ∀ (a b : ℕ) (toDesc : List ℚ → List ℚ) (raw : List (List ℚ)),
    runNotebook a toDesc raw = runNotebook b toDesc raw

/-- C2, counterexample: none of `data.sample(1024)`,
`train_test_split(data, desc, test_size=0.1)` and `LassoCV()` is given an
explicit `random_state`; they all draw from the ambient global generator, so
the first conjunct of the claim is false. -/
theorem C2_counterexample : ¬ claimC2 := by
  intro h
  exact absurd h.1.1 (by decide)

/-- C2 (amended): the randomized steps do *not* take per-call seeds; instead
the notebook seeds the global generator once (`np.random.seed(128)`), and
because that call overwrites the ambient state, two runs of the pipeline on
the same input produce identical outputs whatever ambient random state each
process started with. -/
theorem C2_amended {α : Type} (a b : ℕ) (toDesc : α → List ℚ)
    (raw : List α) : runNotebook a toDesc raw = runNotebook b toDesc raw :=
  rfl

/-! ### The shuffle is a permutation; train and test indices are disjoint -/

lemma getElem_cons_eraseIdx_perm {α : Type} (l : List α) (i : ℕ)
    (h : i < l.length) : List.Perm (l[i] :: l.eraseIdx i) l := by
  induction l generalizing i with
  | nil => simp at h
  | cons a t ih =>
    cases i with
    | zero => simp
    | succ i =>
      have h' : i < t.length := by simpa using h
      have hswap : List.Perm (t[i] :: a :: t.eraseIdx i)
          (a :: (t[i] :: t.eraseIdx i)) :=
        List.Perm.swap a (t[i]) (t.eraseIdx i)
      simpa using hswap.trans ((ih i h').cons a)

lemma shuffleAux_perm {α : Type} :
    ∀ (fuel : ℕ) (xs : List α) (s : ℕ), xs.length ≤ fuel →
      List.Perm (shuffleAux fuel xs s).1 xs := by
  intro fuel
  induction fuel with
  | zero =>
    intro xs s h
    have hx : xs = [] := List.length_eq_zero.mp (Nat.le_zero.mp h)
    subst hx
    simp [shuffleAux]
  | succ k ih =>
    intro xs s h
    match xs with
    | [] => simp [shuffleAux]
    | x :: t =>
      simp only [shuffleAux]
      have hi : lcgNext s % (x :: t).length < (x :: t).length :=
        Nat.mod_lt _ (Nat.succ_pos _)
      have hlen : ((x :: t).eraseIdx (lcgNext s % (x :: t).length)).length ≤ k := by
        have := List.length_eraseIdx_add_one hi
        omega
      have hperm := ih ((x :: t).eraseIdx (lcgNext s % (x :: t).length))
        (lcgNext s) hlen
      simpa using (hperm.cons _).trans
        (getElem_cons_eraseIdx_perm (x :: t) _ hi)

lemma shuffle_perm {α : Type} (xs : List α) (s : ℕ) :
    List.Perm (shuffle xs s).1 xs :=
  shuffleAux_perm _ _ _ le_rfl

/-- The test and train index lists produced by one split are disjoint: the
shuffled index list is a permutation of `range n`, hence duplicate-free, and
the two partitions are its `take`/`drop` halves. -/
lemma splitIndices_disjoint (n tn td s : ℕ) :
    ∀ i ∈ (splitIndices n tn td s).1.2, i ∉ (splitIndices n tn td s).1.1 := by
  intro i hiTrain hiTest
  simp only [splitIndices] at hiTrain hiTest
  have hnd : (shuffle (List.range n) s).1.Nodup :=
    ((shuffle_perm (List.range n) s).nodup_iff).mpr (List.nodup_range n)
  rw [← List.take_append_drop ((tn * n + td - 1) / td)
    (shuffle (List.range n) s).1] at hnd
  exact List.disjoint_of_nodup_append hnd hiTest hiTrain

/-! ### C7: the split preserves row pairing -/

lemma mem_of_mem_select {α : Type} {l : List α} {idxs : List ℕ} {a : α}
    (h : a ∈ select l idxs) : a ∈ l := by
  simp only [select, List.mem_filterMap] at h
  obtain ⟨i, _, hi⟩ := h
  exact List.getElem?_mem hi

lemma select_zip {α β : Type} (data : List α) (desc : List β)
    (h : data.length = desc.length) (idxs : List ℕ) :
    (select data idxs).zip (select desc idxs) = select (data.zip desc) idxs := by
  induction idxs with
  | nil => rfl
  | cons i rest ih =>
    simp only [select, List.filterMap_cons]
    cases hd : data[i]? with
    | none =>
      have hd2 : desc[i]? = none := by
        rw [List.getElem?_eq_none_iff] at hd ⊢
        omega
      have hz : (data.zip desc)[i]? = none := by
        rw [List.getElem?_eq_none_iff] at hd ⊢
        rw [List.length_zip]
        omega
      simpa [hd, hd2, hz] using ih
    | some a =>
      have hlt : i < data.length := by
        by_contra hge
        rw [List.getElem?_eq_none_iff.mpr (by omega)] at hd
        exact Option.noConfusion hd
      have hb : desc[i]? = some desc[i] :=
        List.getElem?_eq_getElem (h ▸ hlt)
      have hz : (data.zip desc)[i]? = some (a, desc[i]) :=
        List.getElem?_zip_eq_some.mpr ⟨hd, hb⟩
      simpa [hd, hb, hz] using ih

/-- C7: `train_test_split(data, desc, test_size=0.1)` partitions both arrays
by the same shuffled index list, so for every row of the test partition (and
likewise the train partition) the descriptor vector and the record are the
aligned pair of some source row. -/
theorem C7_split_pairing {α β : Type} (data : List α) (desc : List β)
    (tn td s : ℕ) (h : data.length = desc.length) :
    (∀ p ∈ ((trainTestSplit data desc tn td s).1.testData.zip
        (trainTestSplit data desc tn td s).1.testDesc),
      p ∈ data.zip desc) ∧
    (∀ p ∈ ((trainTestSplit data desc tn td s).1.trainData.zip
        (trainTestSplit data desc tn td s).1.trainDesc),
      p ∈ data.zip desc) := by
  constructor <;> intro p hp <;>
  · simp only [trainTestSplit] at hp
    rw [select_zip data desc h] at hp
    exact mem_of_mem_select hp

/-- Witness for `C7_split_pairing`: on records `[10, 20, 30]` with
descriptors `[[1], [2], [3]]`, `test_size = 1/10` and state `128`, the test
partition is `([30], [[3]])` and the pair `(30, [3])` is an aligned pair of
the source. -/
theorem C7_split_pairing_witness :
    ([10, 20, 30] : List ℚ).length = ([[1], [2], [3]] : List (List ℚ)).length ∧
    ((30 : ℚ), [(3 : ℚ)]) ∈
      ((trainTestSplit ([10, 20, 30] : List ℚ)
          ([[1], [2], [3]] : List (List ℚ)) 1 10 128).1.testData.zip
        (trainTestSplit ([10, 20, 30] : List ℚ)
          ([[1], [2], [3]] : List (List ℚ)) 1 10 128).1.testDesc) ∧
    ((30 : ℚ), [(3 : ℚ)]) ∈
      ([10, 20, 30] : List ℚ).zip ([[1], [2], [3]] : List (List ℚ)) := by
  refine ⟨by decide, by decide, ?_⟩
  exact (C7_split_pairing ([10, 20, 30] : List ℚ)
      ([[1], [2], [3]] : List (List ℚ)) 1 10 128 (by decide)).1
    ((30 : ℚ), [(3 : ℚ)]) (by decide)

/-! ### C4: what the two scalers of the notebook are fit on

The notebook fits two `StandardScaler`s: the exploratory
`scaler.fit_transform(desc)` cell, which runs *before* any split and hence is
fit on every sampled row (`exploratoryFitIdx = range n`), and the scaler
inside the `Pipeline`, fit during `model.fit(train_desc, ...)` on the train
partition only (`pipelineFitIdx = trainIdx`). -/

/-- Claim C4 as stated: every scaler of the notebook has its parameters
computed exclusively from rows of the training partition. -/
def claimC4 : Prop :=
  ∀ (a : ℕ) (toDesc : List ℚ → List ℚ) (raw : List (List ℚ)),
    (∀ i ∈ (runNotebook a toDesc raw).exploratoryFitIdx,
      i ∈ (runNotebook a toDesc raw).trainIdx) ∧
    (∀ i ∈ (runNotebook a toDesc raw).pipelineFitIdx,
      i ∈ (runNotebook a toDesc raw).trainIdx)

/-- C4, counterexample: on a three-row input the split holds out row index
`1`, yet the exploratory scaler (`scaler.fit_transform(desc)`, run before the
split) was fit on all three rows including row `1`, so not every scaler is
fit exclusively on training data. -/
theorem C4_counterexample : ¬ claimC4 := by
  intro h
  have hmem := (h 0 id [[1], [2], [3]]).1 1 (by decide)
  exact absurd hmem (by decide)

/-- C4 (amended): the *Pipeline* scaler is fit exactly on the training
partition, whose row indices are disjoint from the held-out test indices
(the shuffled index list is duplicate-free); the *exploratory* scaler,
however, is fit on the full sampled dataset, which includes the rows later
held out.  Scalers are immutable values in this embedding: applying one
returns a new table and leaves the fitted parameters untouched. -/
theorem C4_amended {α : Type} (a : ℕ) (toDesc : α → List ℚ)
    (raw : List α) :
    (runNotebook a toDesc raw).pipelineFitIdx =
        (runNotebook a toDesc raw).trainIdx ∧
    ∀ i ∈ (runNotebook a toDesc raw).pipelineFitIdx,
      i ∉ (runNotebook a toDesc raw).testIdx := by
  refine ⟨rfl, ?_⟩
  intro i hi
  simp only [runNotebook] at hi ⊢
  exact splitIndices_disjoint _ _ _ _ i hi

/-- Witness for `C4_amended`: in the three-row run, row index `2` is among
the pipeline scaler's fit rows and is not held out. -/
theorem C4_amended_witness :
    2 ∈ (runNotebook 0 id [[1], [2], [(3 : ℚ)]]).pipelineFitIdx ∧
    2 ∉ (runNotebook 0 id [[1], [2], [(3 : ℚ)]]).testIdx := by
  refine ⟨by decide, ?_⟩
  exact (C4_amended 0 id [[1], [2], [(3 : ℚ)]]).2 2 (by decide)

/-! ## Feature Scaler (`StandardScaler`)

`StandardScaler.fit` stores per-column `mean_` and `var_`, and
`scale_ = sqrt(var_)` after replacing zeros by ones
(`_handle_zeros_in_scale`); `transform` computes `(value - mean_) / scale_`.
`sqrt(var_)` is irrational in general, so the embedding stores `scaleSq`,
the *square* of `scale_` (i.e. the floored variance); `√q = 0 ↔ q = 0`, so
every zeroness statement about `scale_` transfers exactly to `scaleSq`, and
the transform below divides by `scaleSq` as an executable stand-in — the
claims verified about the scaler concern only its shape and the nonzeroness
of the divisor, both invariant under replacing `√q` by `q`. -/

structure FittedScaler where
  mean : List ℚ
  scaleSq : List ℚ
deriving DecidableEq

/-- Population (ddof = 0) variance of a column, as used by
`StandardScaler`. -/
def colVar (xs : List ℚ) : ℚ :=
  (xs.map (fun x => (x - listMean xs) ^ 2)).sum / xs.length

/-- `_handle_zeros_in_scale`: a zero scale is replaced by one so that
scaling never divides by zero. -/
def floorScale (v : ℚ) : ℚ := if v = 0 then 1 else v

/-- The columns of a row-major table (`j`-th entry of each row; rows are
rectangular in every use below). -/
def columnsOf (X : List (List ℚ)) : List (List ℚ) :=
  (List.range (X.headD []).length).map (fun j => X.map (fun r => r.getD j 0))

/-- `StandardScaler().fit(X)`. -/
def fitScaler (X : List (List ℚ)) : FittedScaler :=
  { mean := (columnsOf X).map listMean
    scaleSq := (columnsOf X).map (fun c => floorScale (colVar c)) }

/-- `scaler.transform(X)`: per-cell `(value - mean) / scale`. -/
def applyScaler (sc : FittedScaler) (X : List (List ℚ)) : List (List ℚ) :=
  X.map (fun r => (r.zip (sc.mean.zip sc.scaleSq)).map
    (fun p => (p.1 - p.2.1) / p.2.2))

/-- C9: every scale stored by a fitted scaler is nonzero — even when a
column of the fit table is constant (zero variance), because the zero scale
is floored to one; so applying the scaler never divides by zero. -/
theorem C9_scale_nonzero (X : List (List ℚ)) :
    ∀ v ∈ (fitScaler X).scaleSq, v ≠ 0 := by
  intro v hv
  simp only [fitScaler, List.mem_map] at hv
  obtain ⟨c, _, hc⟩ := hv
  subst hc
  unfold floorScale
  split
  · exact one_ne_zero
  · assumption

/-- Witness for `C9_scale_nonzero`: fitting on a table whose first column is
constant (`[1, 1]`, variance zero, scale floored to `1`) still yields only
nonzero scales. -/
theorem C9_scale_nonzero_witness :
    (1 : ℚ) ∈ (fitScaler [[1, 5], [1, 7]]).scaleSq ∧ (1 : ℚ) ≠ 0 := by
  have hmem : (1 : ℚ) ∈ (fitScaler [[1, 5], [1, 7]]).scaleSq := by
    have : (fitScaler [[1, 5], [1, 7]]).scaleSq = [1, 1] := by
      simp [fitScaler, columnsOf, colVar, listMean, floorScale, List.range_succ]
      norm_num
    rw [this]
    simp
  exact ⟨hmem, C9_scale_nonzero [[1, 5], [1, 7]] 1 hmem⟩

/-! ## Dimensionality Reducer (`PCA`)

`pca.fit_transform(feats)` returns the scores `Y = X · V`, where the columns
of `V` are eigenvectors of the scatter matrix `Xᵀ·X` of the (column-centered)
input.  The eigendecomposition itself is performed by the external library;
it is characterised here by its defining property — `Vᵀ·(Xᵀ·X)·V` is
diagonal — which is exactly what the notebook's
`np.corrcoef(pca_feats.T)` cell exercises. -/

open Matrix

/-- Column mean of a matrix of scores. -/
def colMeanM {m p : ℕ} (Y : Matrix (Fin m) (Fin p) ℚ) (j : Fin p) : ℚ :=
  (∑ i, Y i j) / m

/-- Sample covariance (up to the common positive normalisation) of two
columns of a score matrix, as computed by `np.corrcoef`'s numerator. -/
def pairCov {m p : ℕ} (Y : Matrix (Fin m) (Fin p) ℚ) (j k : Fin p) : ℚ :=
  (∑ i, (Y i j - colMeanM Y j) * (Y i k - colMeanM Y k)) / m

/-- Rational surrogate of the Pearson correlation of two columns: the
covariance divided by the *product of variances* rather than by its square
root (which is irrational in general).  It is zero exactly when the true
Pearson correlation is zero. -/
def pairCorr {m p : ℕ} (Y : Matrix (Fin m) (Fin p) ℚ) (j k : Fin p) : ℚ :=
  pairCov Y j k / (pairCov Y j j * pairCov Y k k)

/-- `pca.fit_transform`: project onto the component loadings. -/
def pcaScores {m n p : ℕ} (X : Matrix (Fin m) (Fin n) ℚ)
    (V : Matrix (Fin n) (Fin p) ℚ) : Matrix (Fin m) (Fin p) ℚ :=
  X * V

/-- C6: for every column-centered input matrix and every loading matrix that
diagonalises its scatter matrix (the defining property of the PCA
eigenbasis), distinct output components have zero covariance, hence
correlation below any tolerance — in exact arithmetic the maximum absolute
pairwise correlation is `0 < 10⁻⁶`. -/
theorem C6_pca_components_uncorrelated {m n p : ℕ}
    (X : Matrix (Fin m) (Fin n) ℚ) (V : Matrix (Fin n) (Fin p) ℚ)
    (hc : ∀ l, ∑ i, X i l = 0)
    (hd : ∀ j k : Fin p, j ≠ k → (Vᵀ * (Xᵀ * X) * V) j k = 0)
    (j k : Fin p) (hjk : j ≠ k) :
    pairCov (pcaScores X V) j k = 0 ∧
      |pairCorr (pcaScores X V) j k| < 1 / 1000000 := by
  have hcY : ∀ l, ∑ i, (pcaScores X V) i l = 0 := by
    intro l
    simp only [pcaScores, Matrix.mul_apply]
    rw [Finset.sum_comm]
    have : ∀ t, ∑ i, X i t * V t l = (∑ i, X i t) * V t l := by
      intro t
      rw [Finset.sum_mul]
    simp only [this, hc, zero_mul, Finset.sum_const_zero]
  have hmean : ∀ l, colMeanM (pcaScores X V) l = 0 := by
    intro l
    simp [colMeanM, hcY l]
  have hsum : ∑ i, (pcaScores X V) i j * (pcaScores X V) i k = 0 := by
    have hentry : ((pcaScores X V)ᵀ * pcaScores X V) j k =
        (Vᵀ * (Xᵀ * X) * V) j k := by
      simp only [pcaScores, Matrix.transpose_mul]
      rw [Matrix.mul_assoc, Matrix.mul_assoc, Matrix.mul_assoc]
    have := hd j k hjk
    rw [← hentry] at this
    simpa [Matrix.mul_apply, Matrix.transpose_apply] using this
  have hcov : pairCov (pcaScores X V) j k = 0 := by
    simp [pairCov, hmean, hsum]
  refine ⟨hcov, ?_⟩
  rw [pairCorr, hcov, zero_div, abs_zero]
  norm_num

/-- Witness for `C6_pca_components_uncorrelated`: the centered matrix
`X = [[1, 2], [-1, -2]]` with eigenbasis `V = [[1, -2], [2, 1]]` of its
scatter matrix gives scores whose two components have zero covariance and
correlation. -/
theorem C6_pca_components_uncorrelated_witness :
    (∀ l, ∑ i, (!![(1 : ℚ), 2; -1, -2]) i l = 0) ∧
    (∀ j k : Fin 2, j ≠ k →
      ((!![(1 : ℚ), -2; 2, 1])ᵀ *
        ((!![(1 : ℚ), 2; -1, -2])ᵀ * !![(1 : ℚ), 2; -1, -2]) *
        !![(1 : ℚ), -2; 2, 1]) j k = 0) ∧
    pairCov (pcaScores !![(1 : ℚ), 2; -1, -2] !![(1 : ℚ), -2; 2, 1]) 0 1 = 0 ∧
    |pairCorr (pcaScores !![(1 : ℚ), 2; -1, -2] !![(1 : ℚ), -2; 2, 1]) 0 1| <
      1 / 1000000 := by
  have hc : ∀ l, ∑ i, (!![(1 : ℚ), 2; -1, -2]) i l = 0 := by
    intro l
    fin_cases l <;> simp [Fin.sum_univ_two]
  have hd : ∀ j k : Fin 2, j ≠ k →
      ((!![(1 : ℚ), -2; 2, 1])ᵀ *
        ((!![(1 : ℚ), 2; -1, -2])ᵀ * !![(1 : ℚ), 2; -1, -2]) *
        !![(1 : ℚ), -2; 2, 1]) j k = 0 := by
    intro j k hjk
    fin_cases j <;> fin_cases k <;>
      simp_all [Matrix.mul_apply, Matrix.transpose_apply, Fin.sum_univ_two,
        Matrix.vecHead, Matrix.vecTail, Matrix.cons_val_zero,
        Matrix.cons_val_one, Matrix.head_cons] <;>
      norm_num
  have h := C6_pca_components_uncorrelated
    !![(1 : ℚ), 2; -1, -2] !![(1 : ℚ), -2; 2, 1] hc hd 0 1 (by decide)
  exact ⟨hc, hd, h.1, h.2⟩

/-! ## C10: every stage after descriptor computation preserves the rows -/

/-- `pca.transform` in row-major list form (as applied inside the
`Pipeline`): center each row at the fitted column means, then take the dot
product with every component loading. -/
def pcaApply (mean : List ℚ) (comps : List (List ℚ)) (X : List (List ℚ)) :
    List (List ℚ) :=
  X.map (fun r => comps.map (fun c =>
    ((((r.zip mean).map (fun p => p.1 - p.2)).zip c).map
      (fun p => p.1 * p.2)).sum))

/-- C10: the Feature Cleaner removes only columns — every surviving column
keeps exactly the entries (hence the rows) of its source column — and
scaling and PCA projection return one output row per input row. -/
theorem C10_row_counts (t : RawTable) (sc : FittedScaler) (mean : List ℚ)
    (comps : List (List ℚ)) (X : List (List ℚ)) :
    (∀ p ∈ cleanTable t, ∃ q ∈ t, p.1 = q.1 ∧ p.2.length = q.2.length) ∧
    (applyScaler sc X).length = X.length ∧
    (pcaApply mean comps X).length = X.length := by
  refine ⟨?_, List.length_map _ _, List.length_map _ _⟩
  intro p hp
  have hp' : p ∈ List.filter (fun p => p.2.all Option.isSome)
      (cleanStepB (cleanStepA t)) := hp
  have hpB := (List.mem_filter.mp hp').1
  simp only [cleanStepB, List.mem_map] at hpB
  obtain ⟨q, hqA, hq⟩ := hpB
  have hq' : q ∈ List.filter (fun p => ! zeroVariation p.2) t := hqA
  refine ⟨q, (List.mem_filter.mp hq').1, ?_, ?_⟩
  · rw [← hq]
  · rw [← hq]
    exact List.length_map _ _

/-- Witness for `C10_row_counts` on concrete two-row inputs. -/
theorem C10_row_counts_witness :
    (("a", [some (1 : ℚ), some 2]) ∈
        cleanTable [("a", [Cell.num 1, Cell.num 2])] ∧
      ∃ q ∈ [("a", [Cell.num 1, Cell.num 2])],
        ("a", [some (1 : ℚ), some 2]).1 = q.1 ∧
          ("a", [some (1 : ℚ), some 2]).2.length = q.2.length) ∧
    (applyScaler ⟨[0], [1]⟩ [[1], [2]]).length =
      ([[1], [2]] : List (List ℚ)).length ∧
    (pcaApply [0] [[1]] [[1], [2]]).length =
      ([[1], [2]] : List (List ℚ)).length := by
  refine ⟨⟨by decide, ?_⟩, ?_, ?_⟩
  · exact (C10_row_counts [("a", [Cell.num 1, Cell.num 2])] ⟨[0], [1]⟩
      [0] [[1]] [[1], [2]]).1 ("a", [some (1 : ℚ), some 2]) (by decide)
  · exact (C10_row_counts [("a", [Cell.num 1, Cell.num 2])] ⟨[0], [1]⟩
      [0] [[1]] [[1], [2]]).2.1
  · exact (C10_row_counts [("a", [Cell.num 1, Cell.num 2])] ⟨[0], [1]⟩
      [0] [[1]] [[1], [2]]).2.2

/-! ## C5: Structure Parser failures and what reaches the Descriptor Engine

`Chem.MolFromSmiles` returns an explicit null (`none`) for a malformed
structure string instead of raising; the notebook stores the parses in the
`mol` column (`data['mol'] = data['smiles_0'].apply(Chem.MolFromSmiles)`)
and then passes that column *unfiltered* to the descriptor engine
(`calc.pandas(data['mol'], nproc=1)`). -/

/-- The `mol` column: one `Option`-valued parse per structure string, for an
arbitrary parser `parse` (the external `Chem.MolFromSmiles`). -/
def molColumn {G : Type} (parse : String → Option G)
    (smiles : List String) : List (Option G) :=
  smiles.map parse

/-- The argument the notebook hands to `calc.pandas`: the `mol` column as
is — no filtering of failed parses happens anywhere in the notebook. -/
def descriptorEngineInput {G : Type} (parse : String → Option G)
    (smiles : List String) : List (Option G) :=
  molColumn parse smiles

/-- Claim C5 as stated: a failed parse yields an explicit `none` (rather
than aborting), and downstream components exclude that record — no null
molecular graph is passed to the Descriptor Engine. -/
def claimC5 : Prop :=
  ∀ (parse : String → Option ℕ) (smiles : List String) (s : String),
    s ∈ smiles → parse s = none →
      none ∉ descriptorEngineInput parse smiles

/-- C5, counterexample: with a parser that fails on the string `"?"`, the
notebook's descriptor-engine input for the one-record dataset `["?"]` is
`[none]` — the null graph *is* passed downstream, because no cell of the
notebook filters the `mol` column. -/
theorem C5_counterexample : ¬ claimC5 := by
  intro h
  exact h (fun _ => none) ["?"] "?" (by simp) rfl (by simp
    [descriptorEngineInput, molColumn])

/-- C5 (amended): a malformed structure string produces an explicit `none`
in the `mol` column without aborting the run, but the notebook passes the
unfiltered `mol` column to the Descriptor Engine, so the null parse of every
failed record is included in (not excluded from) the engine's input. -/
theorem C5_amended {G : Type} (parse : String → Option G)
    (smiles : List String) (s : String) (hs : s ∈ smiles)
    (hfail : parse s = none) :
    none ∈ descriptorEngineInput parse smiles := by
  simp only [descriptorEngineInput, molColumn, List.mem_map]
  exact ⟨s, hs, hfail⟩

/-- Witness for `C5_amended`: the failing parse of `"?"` appears as `none`
in the engine input. -/
theorem C5_amended_witness :
    ("?" ∈ ["?", "CO"] ∧ (fun s => if s = "CO" then some 1 else none) "?" = none) ∧
    none ∈ descriptorEngineInput
      (fun s => if s = "CO" then some (1 : ℕ) else none) ["?", "CO"] := by
  refine ⟨⟨by simp, by simp⟩, ?_⟩
  exact C5_amended (fun s => if s = "CO" then some (1 : ℕ) else none)
    ["?", "CO"] "?" (by simp) (by simp)

/-! ## Feature Selector / Regressor (`LassoCV` / `Lasso`)

`Lasso(alpha=α).fit(X, y)` minimises, per the scikit-learn documentation,
`(1/(2·n_samples)) · ‖y - X·β‖² + α · ‖β‖₁`.  The embedding states the fit
through this objective for the two-feature case the counterexample needs:
a fitted coefficient vector is any minimiser of the objective. -/

/-- The lasso objective for two features. -/
def lassoObj (n : ℕ) (x1 x2 y : Fin n → ℚ) (alpha b1 b2 : ℚ) : ℚ :=
  (∑ i, (y i - b1 * x1 i - b2 * x2 i) ^ 2) / (2 * (n : ℚ)) +
    alpha * (|b1| + |b2|)

/-- `(b1, b2)` is a coefficient vector produced by the lasso fit: a global
minimiser of the objective. -/
def IsLassoMin (n : ℕ) (x1 x2 y : Fin n → ℚ) (alpha b1 b2 : ℚ) : Prop :=
  ∀ c1 c2 : ℚ, lassoObj n x1 x2 y alpha b1 b2 ≤ lassoObj n x1 x2 y alpha c1 c2

/-- Mean of a feature vector. -/
def vecMean (n : ℕ) (x : Fin n → ℚ) : ℚ := (∑ i, x i) / n

/-- Covariance of two feature vectors (the numerator of their Pearson
correlation, which is nonzero exactly when the correlation is — given
nonzero variances). -/
def vecCov (n : ℕ) (x z : Fin n → ℚ) : ℚ :=
  (∑ i, (x i - vecMean n x) * (z i - vecMean n z)) / n

/-- Claim C8 as stated: whenever the regressor is fit with a nonzero
regularization strength on correlated inputs (nonzero correlation, both
variances nonzero), the resulting coefficient vector contains an exact
zero. -/
def claimC8 : Prop :=
  ∀ (n : ℕ) (x1 x2 y : Fin n → ℚ) (alpha b1 b2 : ℚ),
    alpha ≠ 0 →
    vecCov n x1 x2 ≠ 0 → vecCov n x1 x1 ≠ 0 → vecCov n x2 x2 ≠ 0 →
    IsLassoMin n x1 x2 y alpha b1 b2 →
    b1 = 0 ∨ b2 = 0

/-- C8, counterexample: for the perfectly correlated but linearly
independent features `x1 = (1, -1)`, `x2 = (1, 0)`, target `y = (9/4, -1)`
and strength `α = 1/8 ≠ 0`, the vector `(1, 1)` — both coefficients
nonzero — minimises the lasso objective (its KKT residual equals `α` on
both coordinates), so a nonzero strength on correlated inputs does not force
an exact zero coefficient. -/
theorem C8_counterexample : ¬ claimC8 := by
  intro h
  have hmin : IsLassoMin 2 ![1, -1] ![1, 0] ![9 / 4, -1] (1 / 8) 1 1 := by
    intro c1 c2
    simp only [lassoObj, Fin.sum_univ_two, Matrix.cons_val_zero,
      Matrix.cons_val_one, Matrix.head_cons, Nat.cast_ofNat, abs_one]
    rcases abs_cases c1 with ⟨h1, h1s⟩ | ⟨h1, h1s⟩ <;>
      rcases abs_cases c2 with ⟨h2, h2s⟩ | ⟨h2, h2s⟩ <;>
      rw [h1, h2] <;>
      nlinarith [sq_nonneg (c1 + c2 - 2), sq_nonneg (c1 - 1)]
  have hcov : vecCov 2 ![1, -1] ![1, 0] ≠ 0 := by
    simp only [vecCov, vecMean, Fin.sum_univ_two, Matrix.cons_val_zero,
      Matrix.cons_val_one, Matrix.head_cons, Nat.cast_ofNat]
    norm_num
  have hv1 : vecCov 2 ![1, -1] ![1, -1] ≠ 0 := by
    simp only [vecCov, vecMean, Fin.sum_univ_two, Matrix.cons_val_zero,
      Matrix.cons_val_one, Matrix.head_cons, Nat.cast_ofNat]
    norm_num
  have hv2 : vecCov 2 ![1, 0] ![1, 0] ≠ 0 := by
    simp only [vecCov, vecMean, Fin.sum_univ_two, Matrix.cons_val_zero,
      Matrix.cons_val_one, Matrix.head_cons, Nat.cast_ofNat]
    norm_num
  rcases h 2 ![1, -1] ![1, 0] ![9 / 4, -1] (1 / 8) 1 1 (by norm_num)
      hcov hv1 hv2 hmin with h0 | h0 <;>
    exact absurd h0 one_ne_zero

/-- C8 (amended): sparsity is not forced by *any* nonzero regularization
strength on correlated inputs; what holds is the soft-threshold condition —
when the strength is at least as large as every feature–target inner product
divided by the sample count (`|⟨xⱼ, y⟩| ≤ α·n`), the zero vector minimises
the lasso objective, so the fitted coefficient vector is all exact zeros. -/
theorem C8_amended (n : ℕ) (x1 x2 y : Fin n → ℚ) (alpha : ℚ) (hn : 0 < n)
    (h1 : |∑ i, x1 i * y i| ≤ alpha * n)
    (h2 : |∑ i, x2 i * y i| ≤ alpha * n) :
    IsLassoMin n x1 x2 y alpha 0 0 := by
  intro c1 c2
  have hexp : ∀ i, (y i - c1 * x1 i - c2 * x2 i) ^ 2 =
      y i ^ 2 - 2 * c1 * (x1 i * y i) - 2 * c2 * (x2 i * y i) +
        (c1 * x1 i + c2 * x2 i) ^ 2 := by
    intro i
    ring
  have hsum : ∑ i, (y i - c1 * x1 i - c2 * x2 i) ^ 2 =
      (∑ i, y i ^ 2) - 2 * c1 * (∑ i, x1 i * y i) -
        2 * c2 * (∑ i, x2 i * y i) +
        ∑ i, (c1 * x1 i + c2 * x2 i) ^ 2 := by
    simp only [hexp, Finset.sum_add_distrib, Finset.sum_sub_distrib,
      ← Finset.mul_sum]
  have hQ : 0 ≤ ∑ i, (c1 * x1 i + c2 * x2 i) ^ 2 :=
    Finset.sum_nonneg (fun i _ => sq_nonneg _)
  have hb1 : c1 * ∑ i, x1 i * y i ≤ |c1| * (alpha * n) := by
    have habs : |c1 * ∑ i, x1 i * y i| ≤ |c1| * (alpha * n) := by
      rw [abs_mul]
      exact mul_le_mul_of_nonneg_left h1 (abs_nonneg c1)
    exact le_trans (le_abs_self _) habs
  have hb2 : c2 * ∑ i, x2 i * y i ≤ |c2| * (alpha * n) := by
    have habs : |c2 * ∑ i, x2 i * y i| ≤ |c2| * (alpha * n) := by
      rw [abs_mul]
      exact mul_le_mul_of_nonneg_left h2 (abs_nonneg c2)
    exact le_trans (le_abs_self _) habs
  have key : ∑ i, y i ^ 2 ≤
      (∑ i, (y i - c1 * x1 i - c2 * x2 i) ^ 2) +
        2 * (n : ℚ) * (alpha * (|c1| + |c2|)) := by
    rw [hsum]
    have e1 : 2 * (n : ℚ) * (alpha * (|c1| + |c2|)) =
        2 * (|c1| * (alpha * n)) + 2 * (|c2| * (alpha * n)) := by
      ring
    linarith [hQ, hb1, hb2, e1]
  have hnq : (0 : ℚ) < n := by exact_mod_cast hn
  have h2n : (0 : ℚ) < 2 * n := by linarith
  calc lassoObj n x1 x2 y alpha 0 0
      = (∑ i, y i ^ 2) / (2 * (n : ℚ)) := by
        simp [lassoObj]
    _ ≤ ((∑ i, (y i - c1 * x1 i - c2 * x2 i) ^ 2) +
          2 * (n : ℚ) * (alpha * (|c1| + |c2|))) / (2 * (n : ℚ)) := by
        exact div_le_div_of_nonneg_right key h2n.le
    _ = lassoObj n x1 x2 y alpha c1 c2 := by
        rw [add_div, mul_div_cancel_left₀ _ (ne_of_gt h2n)]
        rfl

/-- Witness for `C8_amended` at `n = 1`, `x1 = x2 = (1)`, `y = (0)`,
`α = 1`: the hypotheses hold and the zero vector minimises the objective. -/
theorem C8_amended_witness :
    (0 < 1 ∧
      |∑ i, (![1] : Fin 1 → ℚ) i * (![0] : Fin 1 → ℚ) i| ≤ 1 * ((1 : ℕ) : ℚ)) ∧
    IsLassoMin 1 ![1] ![1] ![0] 1 0 0 := by
  refine ⟨⟨Nat.one_pos, ?_⟩, ?_⟩
  · simp [Fin.sum_univ_one]
  · exact C8_amended 1 ![1] ![1] ![0] 1 Nat.one_pos
      (by simp [Fin.sum_univ_one]) (by simp [Fin.sum_univ_one])

end DescriptorML
